import Mathlib

/-!
Shallow embedding of the Mini CRM backend (Express + Mongoose) request
handlers: the customer routes (`backend/routes/customers.js`), the nested
lead routes, the Joi validation middleware and the Mongoose schemas
(`backend/middleware/validation.js`, lead model file).

Modelling conventions:
* Mongo ObjectIds are modelled as `Nat`.
* A collection is a `List` of records kept in query-result order (the
  `createdAt` sort of the handlers is not re-modelled; the list order of the
  embedded database stands for the sorted order the driver returns).
* HTTP statuses are `Nat` literals (200/201/400/403/404).
* `populate` calls only decorate the response payload and are not modelled.
* JS falsy checks on query strings (`if (q)`, `if (status)`) are modelled by
  comparing with the empty string, which is the only falsy value those
  validated query fields can take.
-/

namespace CRM

/-- A field-level validation error, as produced by the `validate`
middleware: `{ field: detail.path.join('.'), message: detail.message }`. -/
structure FieldError where
  field : String
  message : String
deriving DecidableEq, Repr

/-- The authenticated identity attached by `authenticateToken`
(`req.user`): its Mongo id and its role string (`"user"` or `"admin"`). -/
structure Identity where
  uid : Nat
  role : String
deriving DecidableEq, Repr

/-- A Customer document (Mongoose schema at the bottom of
`backend/middleware/validation.js`): name, email, phone, company, ownerId.
`phone`/`company` are optional in Mongo; an absent field is modelled as
`""`, which behaves identically for every filter in the routes. -/
structure Customer where
  cid : Nat
  name : String
  email : String
  phone : String
  company : String
  ownerId : Nat
deriving DecidableEq, Repr

/-- A Lead document (Mongoose lead schema): customerId, title, description,
status (one of New/Contacted/Converted/Lost), numeric value. -/
structure Lead where
  lid : Nat
  customerId : Nat
  title : String
  description : String
  status : String
  value : Int
deriving DecidableEq, Repr

/-- The persistence layer: the Customers and Leads collections. -/
structure DB where
  customers : List Customer
  leads : List Lead
deriving DecidableEq, Repr

/-! ## Case-insensitive text matching

The customer list endpoint filters with
`{ $regex: q, $options: 'i' }`. The `q` values exercised by the spec and
the claims use only literal characters and the `.` metacharacter, so the
matcher below implements exactly that fragment of the regex syntax: `.`
matches any single character, every other pattern character matches itself
case-insensitively, and the pattern may match anywhere in the subject
(unanchored search), which is `$regex` semantics. -/

/-- One pattern character against one subject character: `.` is a wildcard,
anything else compares case-insensitively. -/
def charMatch (p c : Char) : Bool :=
  p = '.' || p.toLower = c.toLower

/-- Does the pattern match a prefix of the subject? -/
def matchesHere : List Char → List Char → Bool
  | [], _ => true
  | _ :: _, [] => false
  | p :: ps, c :: cs => charMatch p c && matchesHere ps cs

/-- Unanchored regex search: does the pattern match starting at some
position of the subject? -/
def rsearch (pat : List Char) : List Char → Bool
  | [] => matchesHere pat []
  | c :: cs => matchesHere pat (c :: cs) || rsearch pat cs

/-- `$regex: q, $options: 'i'` applied to a stored string field. -/
def regexMatch (q s : String) : Bool :=
  rsearch q.data s.data

/-- Literal (no metacharacter) case-insensitive "starts with". -/
def litHere : List Char → List Char → Bool
  | [], _ => true
  | _ :: _, [] => false
  | p :: ps, c :: cs => p.toLower = c.toLower && litHere ps cs

/-- Case-insensitive contiguous-substring occurrence, the reading the spec
sentence "case-insensitive substring match" gives. -/
def occursIn (pat : List Char) : List Char → Bool
  | [] => pat.isEmpty
  | c :: cs => litHere pat (c :: cs) || occursIn pat cs

/-- `q` occurs case-insensitively as a substring of `s` (spec reading). -/
def substrCI (q s : String) : Bool :=
  occursIn q.data s.data

/-- `q` consists only of characters that are not regex metacharacters (the
PCRE specials `. ^ $ * + ? ( ) [ ] \x7b \x7d | \`). On such patterns
`$regex` is literal matching. -/
def noMeta (q : String) : Bool :=
  q.data.all fun c =>
    !([ '.', '^', '$', '*', '+', '?', '(', ')', '[', ']', '|', '\\',
        Char.ofNat 123, Char.ofNat 125 ].contains c)

/-! ## Validation layer (`backend/middleware/validation.js`)

The Joi schemas are validated with `abortEarly: false`, so the middleware
collects the errors of every failing key (in schema key order) instead of
stopping at the first. A raw request body is a record of optional fields
(a JSON key may be absent); validation either returns the full error list
or the normalized (trimmed, defaulted) body that the handler then sees.
Joi's default message for an absent required key is abbreviated to the
schema's custom message for that key; no claim depends on message text of
required-key errors. Joi's `string.email()` format rule is modelled as a
simple shape check (nonempty local part, one `@`, dotted domain); no claim
depends on its exact boundary. -/

/-- Raw body of `POST /api/customers` and `PUT /api/customers/:id`. -/
structure CustomerInput where
  name : Option String
  email : Option String
  phone : Option String
  company : Option String
deriving DecidableEq, Repr

/-- `customerSchema`-validated body: `name`/`email` are required, the
optional keys stay absent when the client omitted them (Joi has no default
for them), and `ownerId` is not a schema key so it can never appear here. -/
structure CustomerBody where
  name : String
  email : String
  phone : Option String
  company : Option String
deriving DecidableEq, Repr

/-- Raw body of the lead create/update endpoints. `value` arrives as a JSON
number; `Int` is enough for every bound the schema checks. -/
structure LeadInput where
  title : Option String
  description : Option String
  status : Option String
  value : Option Int
deriving DecidableEq, Repr

/-- `leadSchema`-validated body: `title` required, `description` optional
with no default, `status` defaulted to `"New"`, `value` defaulted to `0`. -/
structure LeadBody where
  title : String
  description : Option String
  status : String
  value : Int
deriving DecidableEq, Repr

/-- Joi `trim()` on the character list of a string (leading and trailing
whitespace removed). -/
def trimChars (l : List Char) : List Char :=
  ((l.dropWhile Char.isWhitespace).reverse.dropWhile Char.isWhitespace).reverse

/-- `trim()` on strings. -/
def trimStr (s : String) : String := ⟨trimChars s.data⟩

/-- Joi `lowercase()` normalization. -/
def lowerStr (s : String) : String := ⟨s.data.map Char.toLower⟩

/-- String length in characters (what Joi's `min`/`max` count for the
ASCII data exercised here). -/
def strLen (s : String) : Nat := s.data.length

/-- Split a character list at every occurrence of a separator. -/
def splitOnChar (sep : Char) : List Char → List (List Char)
  | [] => [[]]
  | c :: cs =>
    match splitOnChar sep cs with
    | [] => [[]]
    | h :: t => if c = sep then [] :: h :: t else (c :: h) :: t

/-- Models Joi `string.email()`: nonempty local part, a single `@`, and a
domain containing a dot with nonempty parts around it. -/
def joiEmailOk (s : String) : Bool :=
  match splitOnChar '@' s.data with
  | [loc, dom] =>
      !loc.isEmpty &&
        (let parts := splitOnChar '.' dom
         decide (parts.length ≥ 2) && parts.all (fun p => !p.isEmpty))
  | _ => false

/-- `name: Joi.string().trim().min(2).max(100).required()` with the custom
messages of `customerSchema`. Returns the collected errors for this key and
the normalized value (placeholder when erroneous; unused then). -/
def checkCustomerName (v : Option String) : List FieldError × String :=
  match v with
  | none => ([⟨"name", "Customer name is required"⟩], "")
  | some s =>
    let t := trimStr s
    if strLen t = 0 then ([⟨"name", "Customer name is required"⟩], t)
    else if strLen t < 2 then ([⟨"name", "Name must be at least 2 characters"⟩], t)
    else if strLen t > 100 then ([⟨"name", "Name cannot exceed 100 characters"⟩], t)
    else ([], t)

/-- `email: Joi.string().email().lowercase().trim().required()`. -/
def checkCustomerEmail (v : Option String) : List FieldError × String :=
  match v with
  | none => ([⟨"email", "Email is required"⟩], "")
  | some s =>
    let t := lowerStr (trimStr s)
    if strLen t = 0 then ([⟨"email", "Email is required"⟩], t)
    else if !joiEmailOk t then ([⟨"email", "Please provide a valid email address"⟩], t)
    else ([], t)

/-- `phone: Joi.string().trim().max(20).allow('')`. -/
def checkPhone (v : Option String) : List FieldError × Option String :=
  match v with
  | none => ([], none)
  | some s =>
    let t := trimStr s
    if strLen t > 20 then ([⟨"phone", "Phone number cannot exceed 20 characters"⟩], some t)
    else ([], some t)

/-- `company: Joi.string().trim().max(100).allow('')`. -/
def checkCompany (v : Option String) : List FieldError × Option String :=
  match v with
  | none => ([], none)
  | some s =>
    let t := trimStr s
    if strLen t > 100 then ([⟨"company", "Company name cannot exceed 100 characters"⟩], some t)
    else ([], some t)

/-- `customerSchema.validate(body, { abortEarly: false })`: collects the
errors of all four keys in schema order; on success returns the normalized
body the handler receives as `req.body`. -/
def validateCustomer (i : CustomerInput) : Except (List FieldError) CustomerBody :=
  let n := checkCustomerName i.name
  let e := checkCustomerEmail i.email
  let p := checkPhone i.phone
  let c := checkCompany i.company
  let errs := n.1 ++ e.1 ++ p.1 ++ c.1
  if errs.isEmpty then
    .ok { name := n.2, email := e.2, phone := p.2, company := c.2 }
  else .error errs

/-- `title: Joi.string().trim().min(2).max(200).required()` with the custom
messages of `leadSchema`. -/
def checkTitle (v : Option String) : List FieldError × String :=
  match v with
  | none => ([⟨"title", "Lead title is required"⟩], "")
  | some s =>
    let t := trimStr s
    if strLen t = 0 then ([⟨"title", "Lead title is required"⟩], t)
    else if strLen t < 2 then ([⟨"title", "Title must be at least 2 characters"⟩], t)
    else if strLen t > 200 then ([⟨"title", "Title cannot exceed 200 characters"⟩], t)
    else ([], t)

/-- `description: Joi.string().trim().max(1000).allow('')`. -/
def checkDescription (v : Option String) : List FieldError × Option String :=
  match v with
  | none => ([], none)
  | some s =>
    let t := trimStr s
    if strLen t > 1000 then
      ([⟨"description", "Description cannot exceed 1000 characters"⟩], some t)
    else ([], some t)

/-- `status: Joi.string().valid('New','Contacted','Converted','Lost').default('New')`. -/
def checkStatus (v : Option String) : List FieldError × String :=
  match v with
  | none => ([], "New")
  | some s =>
    if s = "New" || s = "Contacted" || s = "Converted" || s = "Lost" then ([], s)
    else ([⟨"status", "status must be one of New, Contacted, Converted, Lost"⟩], s)

/-- `value: Joi.number().min(0).default(0)` with the custom `number.min`
message. -/
def checkValue (v : Option Int) : List FieldError × Int :=
  match v with
  | none => ([], 0)
  | some n =>
    if n < 0 then ([⟨"value", "Value cannot be negative"⟩], n)
    else ([], n)

/-- `leadSchema.validate(body, { abortEarly: false })`. -/
def validateLead (i : LeadInput) : Except (List FieldError) LeadBody :=
  let t := checkTitle i.title
  let d := checkDescription i.description
  let s := checkStatus i.status
  let v := checkValue i.value
  let errs := t.1 ++ d.1 ++ s.1 ++ v.1
  if errs.isEmpty then
    .ok { title := t.2, description := d.2, status := s.2, value := v.2 }
  else .error errs

/-! ## Route handlers

Each handler takes the authenticated identity (`req.user`), the database
state, the path parameters and — where the route runs `validate(schema)` —
the already-validated body, and returns the HTTP status, any payload, and
the new database state. Fresh Mongo ids for inserts are passed in
explicitly (`newId`). -/

/-- `Customer.findById(id)`. -/
def findCustomer (db : DB) (i : Nat) : Option Customer :=
  db.customers.find? (fun c => c.cid == i)

/-- The inline ownership gate every by-id handler repeats:
`req.user.role !== 'admin' && customer.ownerId.toString() !== req.user._id.toString()`.
`true` means the handler answers 403. -/
def denyAccess (u : Identity) (ownerId : Nat) : Bool :=
  u.role != "admin" && u.uid != ownerId

/-- `Math.ceil(total / limit)` on naturals (exact for the integer inputs
the handlers produce). -/
def ceilDiv (a b : Nat) : Nat := (a + b - 1) / b

/-- The pagination metadata object both list handlers build:
`currentPage: page, totalPages: Math.ceil(total/limit), total…: total,
hasNextPage: page < Math.ceil(total/limit), hasPrevPage: page > 1`. -/
structure Pagination where
  currentPage : Nat
  totalPages : Nat
  totalRecords : Nat
  hasNextPage : Bool
  hasPrevPage : Bool
deriving DecidableEq, Repr

def mkPagination (page limit total : Nat) : Pagination :=
  { currentPage := page
    totalPages := ceilDiv total limit
    totalRecords := total
    hasNextPage := decide (page < ceilDiv total limit)
    hasPrevPage := decide (1 < page) }

/-- A list-endpoint response: status, records of the page, and the
pagination object (absent on the 403/404 early returns). -/
structure ListResp (α : Type) where
  status : Nat
  records : List α
  pagination : Option Pagination
deriving DecidableEq, Repr

/-- The `$or` search clause of `GET /api/customers`: case-insensitive
`$regex` over name, email and company. -/
def searchMatch (q : String) (c : Customer) : Bool :=
  regexMatch q c.name || regexMatch q c.email || regexMatch q c.company

/-- The ownership narrowing of the list query:
`if (req.user.role !== 'admin') query.ownerId = req.user._id`. -/
def customerBaseQuery (u : Identity) (db : DB) : List Customer :=
  if u.role != "admin" then db.customers.filter (fun c => c.ownerId == u.uid)
  else db.customers

/-- The full list query: ownership narrowing plus, when `q` is truthy
(nonempty), the `$or` regex clause. Also used by `countDocuments`. -/
def customerQueryFilter (u : Identity) (db : DB) (q : String) : List Customer :=
  if q == "" then customerBaseQuery u db
  else (customerBaseQuery u db).filter (searchMatch q)

/-- `Lead.countDocuments({ customerId })`, the per-customer enrichment of
the list response. -/
def leadCount (db : DB) (cid : Nat) : Nat :=
  (db.leads.filter (fun l => l.customerId == cid)).length

/-- `GET /api/customers` (validated query: `page ≥ 1`, `1 ≤ limit ≤ 100`,
optional `q`): `skip = (page-1)*limit`, a `skip`/`limit` slice of the query
result, each record paired with its lead count, and the pagination
metadata computed from `countDocuments` over the same filter. -/
def listCustomers (u : Identity) (db : DB) (page limit : Nat) (q : String) :
    ListResp (Customer × Nat) :=
  let matching := customerQueryFilter u db q
  let skip := (page - 1) * limit
  let slice := (matching.drop skip).take limit
  { status := 200
    records := slice.map (fun c => (c, leadCount db c.cid))
    pagination := some (mkPagination page limit matching.length) }

/-- `GET /api/customers/:id`: 404 when absent, 403 on the ownership gate,
otherwise the customer and all its leads. -/
def getCustomerById (u : Identity) (db : DB) (i : Nat) :
    Nat × Option (Customer × List Lead) :=
  match findCustomer db i with
  | none => (404, none)
  | some c =>
    if denyAccess u c.ownerId then (403, none)
    else (200, some (c, db.leads.filter (fun l => l.customerId == i)))

/-- `POST /api/customers` after validation: inserts
`{ ...req.body, ownerId: req.user._id }` and answers 201. The Mongoose
Customer schema declares no unique index on `email` (its `email` field has
only `required`, `lowercase`, `trim`, `match`), so `save()` never raises
duplicate-key error 11000 and the handler's `error.code === 11000` → 400
branch is unreachable: insertion always succeeds. -/
def createCustomer (u : Identity) (db : DB) (b : CustomerBody) (newId : Nat) :
    Nat × DB :=
  (201, { db with customers := db.customers ++
            [{ cid := newId, name := b.name, email := b.email,
               phone := b.phone.getD "", company := b.company.getD "",
               ownerId := u.uid }] })

/-- `findByIdAndUpdate(id, req.body)`: `$set` of the validated body's keys;
`phone`/`company` are only set when the client sent them, and `ownerId` is
not a `customerSchema` key so it is never touched. -/
def applyCustomerBody (c : Customer) (b : CustomerBody) : Customer :=
  { c with name := b.name, email := b.email,
           phone := b.phone.getD c.phone, company := b.company.getD c.company }

/-- `PUT /api/customers/:id` after validation: 404 when absent, 403 on the
ownership gate, otherwise update in place. -/
def putCustomer (u : Identity) (db : DB) (i : Nat) (b : CustomerBody) :
    Nat × DB :=
  match findCustomer db i with
  | none => (404, db)
  | some c =>
    if denyAccess u c.ownerId then (403, db)
    else
      let cs := db.customers.map
        (fun c0 => if c0.cid == i then applyCustomerBody c0 b else c0)
      (200, { db with customers := cs })

/-- `Lead.deleteMany({ customerId: req.params.id })`. -/
def deleteLeadsOf (db : DB) (cid : Nat) : DB :=
  { db with leads := db.leads.filter (fun l => l.customerId != cid) }

/-- `Customer.findByIdAndDelete(req.params.id)`. -/
def removeCustomer (db : DB) (cid : Nat) : DB :=
  { db with customers := db.customers.filter (fun c => c.cid != cid) }

/-- `DELETE /api/customers/:id`: 404 when absent, 403 on the ownership
gate, otherwise the leads of the customer are deleted first and then the
customer itself (`removeCustomer` applied after `deleteLeadsOf`). -/
def deleteCustomer (u : Identity) (db : DB) (i : Nat) : Nat × DB :=
  match findCustomer db i with
  | none => (404, db)
  | some c =>
    if denyAccess u c.ownerId then (403, db)
    else (200, removeCustomer (deleteLeadsOf db i) i)

/-- `Lead.findOne({ _id: leadId, customerId })` (also the filter of
`findOneAndUpdate`/`findOneAndDelete`): the lookup requires both the lead
id and the path's customer id to match. -/
def findLead (db : DB) (leadId custId : Nat) : Option Lead :=
  db.leads.find? (fun l => l.lid == leadId && l.customerId == custId)

/-- `POST /api/customers/:customerId/leads` after validation: customer
lookup, ownership gate, then insert `{ ...req.body, customerId }`. -/
def postLead (u : Identity) (db : DB) (custId : Nat) (b : LeadBody)
    (newId : Nat) : Nat × DB :=
  match findCustomer db custId with
  | none => (404, db)
  | some c =>
    if denyAccess u c.ownerId then (403, db)
    else (201, { db with leads := db.leads ++
                  [{ lid := newId, customerId := custId, title := b.title,
                     description := b.description.getD "",
                     status := b.status, value := b.value }] })

/-- The lead list query: `{ customerId }`, plus `status` when that query
field is truthy (nonempty). -/
def leadQueryFilter (db : DB) (custId : Nat) (status : String) : List Lead :=
  db.leads.filter
    (fun l => l.customerId == custId && (status == "" || l.status == status))

/-- `GET /api/customers/:customerId/leads` (validated query): customer
lookup, ownership gate, then the same skip/limit slice and pagination
metadata as the customer list. -/
def listLeads (u : Identity) (db : DB) (custId : Nat) (page limit : Nat)
    (status : String) : ListResp Lead :=
  match findCustomer db custId with
  | none => { status := 404, records := [], pagination := none }
  | some c =>
    if denyAccess u c.ownerId then { status := 403, records := [], pagination := none }
    else
      let matching := leadQueryFilter db custId status
      let slice := (matching.drop ((page - 1) * limit)).take limit
      { status := 200, records := slice
        pagination := some (mkPagination page limit matching.length) }

/-- `GET /api/customers/:customerId/leads/:leadId`: customer lookup,
ownership gate, then `findOne` on both ids; 404 when that finds nothing. -/
def getLead (u : Identity) (db : DB) (custId leadId : Nat) :
    Nat × Option Lead :=
  match findCustomer db custId with
  | none => (404, none)
  | some c =>
    if denyAccess u c.ownerId then (403, none)
    else match findLead db leadId custId with
      | none => (404, none)
      | some l => (200, some l)

/-- `findOneAndUpdate({_id, customerId}, req.body)`: `$set` of the
validated body; `description` only when present. Mongo `_id`s are unique,
so at most one document matches the update filter. -/
def applyLeadBody (l : Lead) (b : LeadBody) : Lead :=
  { l with title := b.title, description := b.description.getD l.description,
           status := b.status, value := b.value }

/-- `PUT /api/customers/:customerId/leads/:leadId` after validation. -/
def putLead (u : Identity) (db : DB) (custId leadId : Nat) (b : LeadBody) :
    Nat × DB :=
  match findCustomer db custId with
  | none => (404, db)
  | some c =>
    if denyAccess u c.ownerId then (403, db)
    else match findLead db leadId custId with
      | none => (404, db)
      | some _ =>
        let ls := db.leads.map
          (fun l => if l.lid == leadId && l.customerId == custId
                    then applyLeadBody l b else l)
        (200, { db with leads := ls })

/-- `DELETE /api/customers/:customerId/leads/:leadId`:
`findOneAndDelete({_id, customerId})`, 404 when nothing matches. -/
def deleteLead (u : Identity) (db : DB) (custId leadId : Nat) : Nat × DB :=
  match findCustomer db custId with
  | none => (404, db)
  | some c =>
    if denyAccess u c.ownerId then (403, db)
    else match findLead db leadId custId with
      | none => (404, db)
      | some _ =>
        let ls := db.leads.filter
          (fun l => !(l.lid == leadId && l.customerId == custId))
        (200, { db with leads := ls })

/-! ## Validation-plus-handler pipelines

The mutating routes run `validate(schema)` before the handler: a failing
body answers 400 with the collected `details` and the handler — hence any
persistence call — never runs. -/

/-- Outcome of a mutating route including its validation middleware. -/
structure PipeResult where
  status : Nat
  details : Option (List FieldError)
  db : DB
deriving DecidableEq, Repr

/-- `POST /api/customers` including `validate(customerSchema)`. -/
def postCustomerPipeline (u : Identity) (db : DB) (i : CustomerInput)
    (newId : Nat) : PipeResult :=
  match validateCustomer i with
  | .error errs => { status := 400, details := some errs, db := db }
  | .ok b =>
    let r := createCustomer u db b newId
    { status := r.1, details := none, db := r.2 }

/-- `PUT /api/customers/:id` including `validate(customerSchema)`. -/
def putCustomerPipeline (u : Identity) (db : DB) (i : Nat)
    (input : CustomerInput) : PipeResult :=
  match validateCustomer input with
  | .error errs => { status := 400, details := some errs, db := db }
  | .ok b =>
    let r := putCustomer u db i b
    { status := r.1, details := none, db := r.2 }

/-- `POST /api/customers/:customerId/leads` including
`validate(leadSchema)`. -/
def postLeadPipeline (u : Identity) (db : DB) (custId : Nat)
    (input : LeadInput) (newId : Nat) : PipeResult :=
  match validateLead input with
  | .error errs => { status := 400, details := some errs, db := db }
  | .ok b =>
    let r := postLead u db custId b newId
    { status := r.1, details := none, db := r.2 }

/-- `PUT /api/customers/:customerId/leads/:leadId` including
`validate(leadSchema)`. -/
def putLeadPipeline (u : Identity) (db : DB) (custId leadId : Nat)
    (input : LeadInput) : PipeResult :=
  match validateLead input with
  | .error errs => { status := 400, details := some errs, db := db }
  | .ok b =>
    let r := putLead u db custId leadId b
    { status := r.1, details := none, db := r.2 }

/-! ## Sample data (used by the concrete witnesses) -/

def adminU : Identity := ⟨1, "admin"⟩
def userA : Identity := ⟨2, "user"⟩
def userB : Identity := ⟨3, "user"⟩

def custA : Customer := ⟨10, "Alice Shop", "alice@shop.com", "", "Acme Corp", 2⟩
def custB : Customer := ⟨11, "Bob Mart", "bob@mart.com", "", "Mart Inc", 3⟩

def leadA1 : Lead := ⟨100, 10, "Big deal", "", "New", 5⟩
def leadA2 : Lead := ⟨101, 10, "Small deal", "", "Contacted", 2⟩
def leadB1 : Lead := ⟨102, 11, "Other deal", "", "New", 7⟩

def db0 : DB := ⟨[custA, custB], [leadA1, leadA2, leadB1]⟩

def cbSample : CustomerBody := ⟨"Alice Shop Two", "alice2@shop.com", none, none⟩
def lbSample : LeadBody := ⟨"Fresh lead", none, "New", 4⟩

/-! ## Theorems -/

/-- The boolean ownership gate answers `false` (allow) exactly when the
identity is an admin or owns the record. -/
theorem denyAccess_false_iff (u : Identity) (o : Nat) :
    denyAccess u o = false ↔ (u.role = "admin" ∨ u.uid = o) := by
  simp [denyAccess, Bool.and_eq_false_iff]
  tauto

/-- C1: for every authenticated by-id customer or lead operation
(GET/PUT/DELETE `/api/customers/:id` and POST/GET/PUT/DELETE under
`/api/customers/:customerId/leads`), when the target customer exists the
request passes the ownership gate (its status is not 403) iff the
identity's role is `admin` or its id equals the customer's `ownerId`, and
otherwise it is denied with 403 and the database is left unchanged. -/
theorem ownership_gate_by_id (u : Identity) (db : DB) (i : Nat) (c : Customer)
    (h : findCustomer db i = some c)
    (cb : CustomerBody) (lb : LeadBody) (nid page limit leadId : Nat)
    (st : String) :
    ((u.role = "admin" ∨ u.uid = c.ownerId) →
      (getCustomerById u db i).1 ≠ 403 ∧
      (putCustomer u db i cb).1 ≠ 403 ∧
      (deleteCustomer u db i).1 ≠ 403 ∧
      (postLead u db i lb nid).1 ≠ 403 ∧
      (listLeads u db i page limit st).status ≠ 403 ∧
      (getLead u db i leadId).1 ≠ 403 ∧
      (putLead u db i leadId lb).1 ≠ 403 ∧
      (deleteLead u db i leadId).1 ≠ 403) ∧
    (¬(u.role = "admin" ∨ u.uid = c.ownerId) →
      (getCustomerById u db i) = (403, none) ∧
      (putCustomer u db i cb) = (403, db) ∧
      (deleteCustomer u db i) = (403, db) ∧
      (postLead u db i lb nid) = (403, db) ∧
      (listLeads u db i page limit st) = ⟨403, [], none⟩ ∧
      (getLead u db i leadId) = (403, none) ∧
      (putLead u db i leadId lb) = (403, db) ∧
      (deleteLead u db i leadId) = (403, db)) := by
  constructor
  · intro hAllow
    have hd : denyAccess u c.ownerId = false := (denyAccess_false_iff u c.ownerId).mpr hAllow
    refine ⟨?_, ?_, ?_, ?_, ?_, ?_, ?_, ?_⟩ <;>
      simp [getCustomerById, putCustomer, deleteCustomer, postLead, listLeads,
            getLead, putLead, deleteLead, h, hd] <;>
      cases hfl : findLead db leadId i <;> simp [hfl]
  · intro hDeny
    have hd : denyAccess u c.ownerId = true := by
      cases hb : denyAccess u c.ownerId
      · exact absurd ((denyAccess_false_iff u c.ownerId).mp hb) hDeny
      · rfl
    refine ⟨?_, ?_, ?_, ?_, ?_, ?_, ?_, ?_⟩ <;>
      simp [getCustomerById, putCustomer, deleteCustomer, postLead, listLeads,
            getLead, putLead, deleteLead, h, hd]

/-- C1 witness: with the sample database, the non-owner `userB` is denied
on `custA` (id 10) with 403 and no state change, while the owner `userA`
is not denied. -/
theorem ownership_gate_by_id_witness :
    putCustomer userB db0 10 cbSample = (403, db0) ∧
    (getCustomerById userA db0 10).1 ≠ 403 :=
  ⟨((ownership_gate_by_id userB db0 10 custA (by decide) cbSample lbSample
      500 1 10 100 "").2 (by decide)).2.1,
   ((ownership_gate_by_id userA db0 10 custA (by decide) cbSample lbSample
      500 1 10 100 "").1 (by decide)).1⟩

/-- Membership in the full customer list query implies membership in the
ownership-narrowed base query. -/
theorem mem_base_of_mem_queryFilter {u : Identity} {db : DB} {q : String}
    {c : Customer} (hc : c ∈ customerQueryFilter u db q) :
    c ∈ customerBaseQuery u db := by
  unfold customerQueryFilter at hc
  split at hc
  · exact hc
  · exact List.mem_of_mem_filter hc

/-- C2: on `GET /api/customers`, a non-admin identity only ever receives
customers whose `ownerId` is its own id (the query is narrowed to its
records), while for an admin the base query is the whole collection — no
ownership filter is applied. -/
theorem list_ownership_scope (u : Identity) (db : DB) (page limit : Nat)
    (q : String) :
    (u.role ≠ "admin" →
      ∀ p ∈ (listCustomers u db page limit q).records, p.1.ownerId = u.uid) ∧
    (u.role = "admin" → customerBaseQuery u db = db.customers) := by
  constructor
  · intro hne p hp
    simp only [listCustomers, List.mem_map] at hp
    obtain ⟨c, hc, rfl⟩ := hp
    have hc1 : c ∈ customerQueryFilter u db q :=
      List.drop_subset _ _ (List.take_subset _ _ hc)
    have hc2 : c ∈ customerBaseQuery u db := mem_base_of_mem_queryFilter hc1
    unfold customerBaseQuery at hc2
    rw [if_pos (bne_iff_ne.mpr hne)] at hc2
    simpa using (List.of_mem_filter hc2)
  · intro ha
    simp [customerBaseQuery, ha]

/-- C2 witness: non-admin `userA` only sees its own customers on the
sample database, and for the admin the base query is the whole
collection. -/
theorem list_ownership_scope_witness :
    custA.ownerId = userA.uid ∧ customerBaseQuery adminU db0 = db0.customers :=
  ⟨(list_ownership_scope userA db0 1 10 "").1 (by decide) (custA, 2) (by decide),
   (list_ownership_scope adminU db0 1 10 "").2 (by decide)⟩

/-- C3: a successful `DELETE /api/customers/:id` on an existing,
authorized customer deletes the customer's leads first (the intermediate
state still holds the customer) and then the customer itself; afterwards
no lead referencing the customer exists, the customer is gone, and a
subsequent fetch of any lead id under that customer answers 404. -/
theorem cascade_delete (u u' : Identity) (db : DB) (i : Nat) (c : Customer)
    (h : findCustomer db i = some c)
    (hAllow : u.role = "admin" ∨ u.uid = c.ownerId) :
    deleteCustomer u db i = (200, removeCustomer (deleteLeadsOf db i) i) ∧
    findCustomer (deleteLeadsOf db i) i = some c ∧
    (∀ l ∈ (deleteCustomer u db i).2.leads, l.customerId ≠ i) ∧
    findCustomer (deleteCustomer u db i).2 i = none ∧
    (∀ leadId, getLead u' (deleteCustomer u db i).2 i leadId = (404, none)) := by
  have hd : denyAccess u c.ownerId = false := (denyAccess_false_iff u c.ownerId).mpr hAllow
  have hdel : deleteCustomer u db i = (200, removeCustomer (deleteLeadsOf db i) i) := by
    simp [deleteCustomer, h, hd]
  have hnone : findCustomer (removeCustomer (deleteLeadsOf db i) i) i = none := by
    simp only [findCustomer, removeCustomer, deleteLeadsOf, List.find?_eq_none,
      List.mem_filter]
    intro a ha
    simpa using ha.2
  refine ⟨hdel, ?_, ?_, ?_, ?_⟩
  · simpa [findCustomer, deleteLeadsOf] using h
  · intro l hl
    rw [hdel] at hl
    simp only [removeCustomer, deleteLeadsOf, List.mem_filter] at hl
    simpa using hl.2
  · rw [hdel]
    exact hnone
  · intro leadId
    rw [hdel]
    simp [getLead, hnone]

/-- C3 witness: `userA` deleting its customer 10 from the sample database
leaves only customer 11 and its lead, and a subsequent fetch of the old
lead 100 under customer 10 answers 404. -/
theorem cascade_delete_witness :
    (deleteCustomer userA db0 10).2 = ⟨[custB], [leadB1]⟩ ∧
    getLead userA (deleteCustomer userA db0 10).2 10 100 = (404, none) :=
  ⟨by decide,
   (cascade_delete userA userA db0 10 custA (by decide) (by decide)).2.2.2.2 100⟩

/-- `ceilDiv total limit` really is the ceiling of `total / limit`: it is
the least number of pages covering all records. -/
theorem ceilDiv_is_ceiling (t l : Nat) (hl : 0 < l) :
    t ≤ ceilDiv t l * l ∧ ∀ k, t ≤ k * l → ceilDiv t l ≤ k := by
  have he : ceilDiv t l = t ⌈/⌉ l := rfl
  constructor
  · have hs := le_smul_ceilDiv (a := l) (b := t) hl
    rw [smul_eq_mul] at hs
    rw [he, mul_comm]
    exact hs
  · intro k hk
    rw [he]
    exact (ceilDiv_le_iff_le_mul hl).mpr (by rwa [mul_comm] at hk)

/-- C4: every successful paginated list response (customers or leads) with
a validated page and limit returns the slice of the filtered records
starting at offset `(page-1)*limit` with at most `limit` records, and
pagination metadata with `currentPage = page`,
`totalPages = ceil(total/limit)` (characterised as the least page count
covering all records), `hasNextPage = (page < totalPages)` and
`hasPrevPage = (page > 1)`; in particular 25 records with `limit = 10`
give `totalPages = 3`, `hasNextPage` true and `hasPrevPage` false on page
1, and `hasNextPage` false on page 3. -/
theorem pagination_contract (u : Identity) (db : DB) (page limit : Nat)
    (q : String) (custId : Nat) (st : String)
    (hpage : 1 ≤ page) (hlim1 : 1 ≤ limit) (hlim2 : limit ≤ 100) :
    ((listCustomers u db page limit q).records =
        (((customerQueryFilter u db q).drop ((page - 1) * limit)).take limit).map
          (fun c => (c, leadCount db c.cid)) ∧
      (listCustomers u db page limit q).records.length ≤ limit ∧
      (listCustomers u db page limit q).pagination =
        some (mkPagination page limit (customerQueryFilter u db q).length)) ∧
    ((listLeads u db custId page limit st).status = 200 →
      (listLeads u db custId page limit st).records =
        ((leadQueryFilter db custId st).drop ((page - 1) * limit)).take limit ∧
      (listLeads u db custId page limit st).records.length ≤ limit ∧
      (listLeads u db custId page limit st).pagination =
        some (mkPagination page limit (leadQueryFilter db custId st).length)) ∧
    (∀ total,
      (mkPagination page limit total).currentPage = page ∧
      (mkPagination page limit total).totalRecords = total ∧
      (mkPagination page limit total).totalPages = ceilDiv total limit ∧
      total ≤ ceilDiv total limit * limit ∧
      (∀ k, total ≤ k * limit → ceilDiv total limit ≤ k) ∧
      ((mkPagination page limit total).hasNextPage = true ↔
        page < ceilDiv total limit) ∧
      ((mkPagination page limit total).hasPrevPage = true ↔ 1 < page)) ∧
    (mkPagination 1 10 25 = ⟨1, 3, 25, true, false⟩ ∧
      (mkPagination 3 10 25).hasNextPage = false) := by
  refine ⟨⟨rfl, ?_, rfl⟩, ?_, ?_, by decide, by decide⟩
  · simp only [listCustomers, List.length_map, List.length_take]
    exact Nat.min_le_left _ _
  · intro h200
    simp only [listLeads] at h200 ⊢
    cases hfc : findCustomer db custId with
    | none => rw [hfc] at h200; simp at h200
    | some c =>
      simp only [hfc] at h200 ⊢
      cases hda : denyAccess u c.ownerId with
      | true => simp [hda] at h200
      | false =>
        simp only [hda, Bool.false_eq_true, if_false, List.length_take]
        exact ⟨trivial, Nat.min_le_left _ _, trivial⟩
  · intro total
    refine ⟨rfl, rfl, rfl, (ceilDiv_is_ceiling total limit (by omega)).1,
      (ceilDiv_is_ceiling total limit (by omega)).2, ?_, ?_⟩
    · exact decide_eq_true_iff
    · exact decide_eq_true_iff

/-- C4 witness: instantiating the pagination contract at page 1, limit 10
yields exactly the spec's 25-record example. -/
theorem pagination_contract_witness :
    mkPagination 1 10 25 = ⟨1, 3, 25, true, false⟩ ∧
    (mkPagination 3 10 25).hasNextPage = false :=
  (pagination_contract userA db0 1 10 "" 10 ""
    (by decide) (by decide) (by decide)).2.2.2

/-- C5 (code-bug evidence): the Mongoose Customer schema declares no
unique index on `email`, so the duplicate-key (11000 → 400) branch of
`POST /api/customers` can never fire: creating a customer whose email
equals the existing `custA`'s email succeeds with 201 and leaves two
customers sharing that email, contradicting the documented uniqueness of
`Customer.email`. -/
theorem duplicate_email_create_succeeds :
    (postCustomerPipeline userA db0
        ⟨some "Dup Name", some "alice@shop.com", none, none⟩ 99).status = 201 ∧
    ((postCustomerPipeline userA db0
        ⟨some "Dup Name", some "alice@shop.com", none, none⟩ 99).db.customers.filter
      (fun c => c.email == "alice@shop.com")).length = 2 := by
  constructor
  · rfl
  · rfl

/-- C6: whenever the request body of a mutating endpoint fails its schema,
the route answers 400 carrying the full collected error list and the
database is untouched; validation collects every violated constraint (a
body missing `title`, with a bad `status` and with `value = -5` yields all
three field errors), and in particular a lead body with `value = -5` fails
with the field-level message on `value` and persists nothing. -/
theorem validation_rejects_without_side_effects
    (u : Identity) (db : DB) (i custId leadId nid : Nat)
    (ci : CustomerInput) (li : LeadInput)
    (cerrs lerrs : List FieldError)
    (hc : validateCustomer ci = .error cerrs)
    (hl : validateLead li = .error lerrs) :
    postCustomerPipeline u db ci nid = ⟨400, some cerrs, db⟩ ∧
    putCustomerPipeline u db i ci = ⟨400, some cerrs, db⟩ ∧
    postLeadPipeline u db custId li nid = ⟨400, some lerrs, db⟩ ∧
    putLeadPipeline u db custId leadId li = ⟨400, some lerrs, db⟩ ∧
    validateLead ⟨none, none, some "Bogus", some (-5)⟩ =
      .error [⟨"title", "Lead title is required"⟩,
              ⟨"status", "status must be one of New, Contacted, Converted, Lost"⟩,
              ⟨"value", "Value cannot be negative"⟩] ∧
    postLeadPipeline u db custId ⟨some "Good title", none, none, some (-5)⟩ nid =
      ⟨400, some [⟨"value", "Value cannot be negative"⟩], db⟩ := by
  have hv : validateLead ⟨some "Good title", none, none, some (-5)⟩ =
      .error [⟨"value", "Value cannot be negative"⟩] := by rfl
  refine ⟨?_, ?_, ?_, ?_, by rfl, ?_⟩
  · simp [postCustomerPipeline, hc]
  · simp [putCustomerPipeline, hc]
  · simp [postLeadPipeline, hl]
  · simp [putLeadPipeline, hl]
  · simp [postLeadPipeline, hv]

/-- C6 witness: a lead creation with `value = -5` on the sample database
answers 400 with the `value` field error and leaves the database as it
was. -/
theorem validation_rejects_witness :
    postLeadPipeline userA db0 10 ⟨some "Good title", none, none, some (-5)⟩ 77 =
      ⟨400, some [⟨"value", "Value cannot be negative"⟩], db0⟩ :=
  (validation_rejects_without_side_effects userA db0 0 10 0 77
    ⟨some "A", some "bad", none, none⟩
    ⟨some "Good title", none, none, some (-5)⟩
    [⟨"name", "Name must be at least 2 characters"⟩,
     ⟨"email", "Please provide a valid email address"⟩]
    [⟨"value", "Value cannot be negative"⟩]
    (by rfl) (by rfl)).2.2.2.2.2

/-- C7: a successful `PUT /api/customers/:id` changes no customer's `cid`
or `ownerId`: the (id, owner) projection of the collection is identical
before and after, so the owner reference of the updated record — and of
every other record — is preserved. -/
theorem update_preserves_owner (u : Identity) (db : DB) (i : Nat)
    (b : CustomerBody) (db' : DB)
    (h : putCustomer u db i b = (200, db')) :
    db'.customers.map (fun c => (c.cid, c.ownerId)) =
      db.customers.map (fun c => (c.cid, c.ownerId)) := by
  unfold putCustomer at h
  cases hfc : findCustomer db i with
  | none => rw [hfc] at h; simp at h
  | some c =>
    simp only [hfc] at h
    cases hda : denyAccess u c.ownerId with
    | true => simp [hda] at h
    | false =>
      simp only [hda, Bool.false_eq_true, if_false] at h
      injection h with h1 h2
      subst h2
      simp only [List.map_map]
      apply List.map_congr_left
      intro a _
      by_cases hcid : (a.cid == i) = true <;>
        simp [Function.comp, hcid, applyCustomerBody]

/-- C7 witness: updating customer 10 as its owner keeps every (id, owner)
pair of the collection. -/
theorem update_preserves_owner_witness :
    (putCustomer userA db0 10 cbSample).2.customers.map
        (fun c => (c.cid, c.ownerId)) =
      db0.customers.map (fun c => (c.cid, c.ownerId)) :=
  update_preserves_owner userA db0 10 cbSample
    (putCustomer userA db0 10 cbSample).2 (by rfl)

/-- On a pattern without `.`, one step of regex matching is literal
case-insensitive matching. -/
theorem matchesHere_eq_litHere (pat : List Char) (h : '.' ∉ pat) :
    ∀ s, matchesHere pat s = litHere pat s := by
  induction pat with
  | nil => intro s; cases s <;> rfl
  | cons p ps ih =>
    intro s
    cases s with
    | nil => rfl
    | cons c cs =>
      have hp : p ≠ '.' := fun he => h (he ▸ List.mem_cons_self _ _)
      have hps : '.' ∉ ps := fun hm => h (List.mem_cons_of_mem _ hm)
      simp [matchesHere, litHere, charMatch, hp, ih hps]

/-- On a pattern without `.`, unanchored regex search is case-insensitive
substring occurrence. -/
theorem rsearch_eq_occursIn (pat : List Char) (h : '.' ∉ pat) :
    ∀ s, rsearch pat s = occursIn pat s := by
  intro s
  induction s with
  | nil => cases pat <;> simp [rsearch, occursIn, matchesHere, List.isEmpty]
  | cons c cs ih => simp [rsearch, occursIn, matchesHere_eq_litHere pat h, ih]

/-- For a metacharacter-free `q`, the `$regex`/`i` filter coincides with
case-insensitive substring matching. -/
theorem regexMatch_eq_substrCI (q s : String) (h : noMeta q = true) :
    regexMatch q s = substrCI q s := by
  have hdot : '.' ∉ q.data := by
    intro hm
    have hc := (List.all_eq_true.mp h) '.' hm
    exact absurd hc (by decide)
  exact rsearch_eq_occursIn q.data hdot s.data

/-- C8 (amended): the customer search treats `q` as a case-insensitive
regular-expression pattern ORed over name/email/company; for a `q` that
contains no regex metacharacter this is exactly "q occurs
case-insensitively as a substring of the name, the email, or the company",
and in particular `q = "acme"` matches `company = "Acme Corp"`. -/
theorem search_filter_regex (u : Identity) (db : DB) (q : String)
    (hq : q ≠ "") (hm : noMeta q = true) :
    (∀ c, c ∈ customerQueryFilter u db q ↔
      c ∈ customerBaseQuery u db ∧
        (substrCI q c.name || substrCI q c.email || substrCI q c.company) = true) ∧
    substrCI "acme" "Acme Corp" = true := by
  constructor
  · intro c
    have hqe : (q == "") = false := beq_eq_false_iff_ne.mpr hq
    simp [customerQueryFilter, hqe, List.mem_filter, searchMatch,
      regexMatch_eq_substrCI _ _ hm]
  · rfl

/-- C8 witness: with `q = "acme"` the owner's customer with
`company = "Acme Corp"` is in the filtered set. -/
theorem search_filter_regex_witness :
    custA ∈ customerQueryFilter userA db0 "acme" ∧
    substrCI "acme" "Acme Corp" = true :=
  ⟨((search_filter_regex userA db0 "acme" (by decide) (by decide)).1 custA).mpr
      ⟨by decide, by rfl⟩,
   (search_filter_regex userA db0 "acme" (by decide) (by decide)).2⟩

/-- A customer visible to `userA` whose only searchable content is the
company string `"xyz"`. -/
def custX : Customer := ⟨12, "Xavier", "x@y.io", "", "xyz", 2⟩

def dbX : DB := ⟨[custX], []⟩

/-- C8 counterexample to the claim as stated: the validated query
`q = "x.z"` returns the customer with company `"xyz"` even though `"x.z"`
does not occur case-insensitively as a substring of its name, email or
company — `$regex` interprets `.` as a wildcard rather than literally. -/
theorem search_substring_counterexample :
    (listCustomers userA dbX 1 10 "x.z").records.map Prod.fst = [custX] ∧
    substrCI "x.z" custX.name = false ∧
    substrCI "x.z" custX.email = false ∧
    substrCI "x.z" custX.company = false :=
  ⟨rfl, rfl, rfl, rfl⟩

/-- C9: a validated list request whose page lies beyond the last page
(offset at or past the total count) yields a success response with an
empty record list, not an error — for the customer list always, and for
the lead list under an existing, authorized customer. -/
theorem page_beyond_total_empty (u : Identity) (db : DB) (page limit : Nat)
    (q : String) (custId : Nat) (st : String) (c : Customer)
    (hskip : (customerQueryFilter u db q).length ≤ (page - 1) * limit) :
    ((listCustomers u db page limit q).status = 200 ∧
      (listCustomers u db page limit q).records = []) ∧
    (findCustomer db custId = some c →
      (u.role = "admin" ∨ u.uid = c.ownerId) →
      (leadQueryFilter db custId st).length ≤ (page - 1) * limit →
      (listLeads u db custId page limit st).status = 200 ∧
      (listLeads u db custId page limit st).records = []) := by
  constructor
  · exact ⟨rfl, by simp [listCustomers, List.drop_eq_nil_of_le hskip]⟩
  · intro hfc hAllow hskip2
    have hd : denyAccess u c.ownerId = false :=
      (denyAccess_false_iff u c.ownerId).mpr hAllow
    constructor <;> simp [listLeads, hfc, hd, List.drop_eq_nil_of_le hskip2]

/-- C9 witness: page 5 with limit 10 against the sample database (1
visible customer, 2 leads under customer 10) returns empty lists with
status 200. -/
theorem page_beyond_total_empty_witness :
    (listCustomers userA db0 5 10 "").records = [] ∧
    (listLeads userA db0 10 5 10 "").records = [] :=
  ⟨(page_beyond_total_empty userA db0 5 10 "" 10 "" custA (by decide)).1.2,
   ((page_beyond_total_empty userA db0 5 10 "" 10 "" custA (by decide)).2
      (by decide) (by decide) (by decide)).2⟩

/-- C10: every lead lookup of the by-lead-id routes filters by both `_id`
and `customerId`: when the path's customer exists and the request is
authorized (admin included), a lead whose id matches but whose
`customerId` differs from the path is not found — GET answers 404 and
PUT/DELETE answer 404 leaving the database unchanged. -/
theorem lead_lookup_scoped (u : Identity) (db : DB) (custId leadId : Nat)
    (c : Customer) (l : Lead) (b : LeadBody)
    (hfc : findCustomer db custId = some c)
    (hAllow : u.role = "admin" ∨ u.uid = c.ownerId)
    (hl : l ∈ db.leads) (hlid : l.lid = leadId)
    (hdiff : l.customerId ≠ custId)
    (huniq : ∀ l' ∈ db.leads, l'.lid = leadId → l' = l) :
    findLead db leadId custId = none ∧
    getLead u db custId leadId = (404, none) ∧
    putLead u db custId leadId b = (404, db) ∧
    deleteLead u db custId leadId = (404, db) := by
  have hd : denyAccess u c.ownerId = false :=
    (denyAccess_false_iff u c.ownerId).mpr hAllow
  have hfl : findLead db leadId custId = none := by
    rw [findLead, List.find?_eq_none]
    intro x hx hpx
    simp only [Bool.and_eq_true, beq_iff_eq] at hpx
    have hxl : x = l := huniq x hx hpx.1
    exact hdiff (hxl ▸ hpx.2)
  exact ⟨hfl, by simp [getLead, hfc, hd, hfl], by simp [putLead, hfc, hd, hfl],
    by simp [deleteLead, hfc, hd, hfl]⟩

/-- C10 witness: under customer 10, looking up lead 102 (which belongs to
customer 11) answers 404 for the admin too, and DELETE changes nothing. -/
theorem lead_lookup_scoped_witness :
    getLead adminU db0 10 102 = (404, none) ∧
    deleteLead adminU db0 10 102 = (404, db0) :=
  ⟨(lead_lookup_scoped adminU db0 10 102 custA leadB1 lbSample (by decide)
      (by decide) (by decide) (by decide) (by decide) (by decide)).2.1,
   (lead_lookup_scoped adminU db0 10 102 custA leadB1 lbSample (by decide)
      (by decide) (by decide) (by decide) (by decide) (by decide)).2.2.2⟩

end CRM
